import Mathlib

/-!
Formal model of the lessons-booking REST API server in src/server.js.

The server is an Express application over a MongoDB database with two
collections, lessons and order_placed.  Every route is a direct
translation of one collection call.  We embed the reachable state as a
pair of document lists plus a counter used to generate fresh ObjectIds,
and each route handler as a pure function from the state and the parsed
request to the new state and the HTTP response.  Database connectivity
failures are outside the model; the error behaviours that are
deterministic in the request: an invalid ObjectId string passed to the
ObjectId constructor, an empty bulkWrite batch, an empty or
_id-altering update document, and a duplicate key on insert, are
modelled faithfully after the driver and server semantics the code
relies on.
-/

namespace Server

/-- BSON/JSON values as stored in documents and returned in response
bodies.  `voidv` is an ObjectId, carried as its normalized (lower-case)
24-character hex string. -/
inductive BVal where
  | vnull : BVal
  | vbool (b : Bool) : BVal
  | vnum (n : Int) : BVal
  | vstr (s : String) : BVal
  | voidv (s : String) : BVal
  | varr (xs : List BVal) : BVal
  | vobj (fs : List (String × BVal)) : BVal
  deriving Repr

mutual

/-- Boolean equality on values (structural). -/
def BVal.beq : BVal → BVal → Bool
  | .vnull, .vnull => true
  | .vbool a, .vbool b => a == b
  | .vnum a, .vnum b => a == b
  | .vstr a, .vstr b => a == b
  | .voidv a, .voidv b => a == b
  | .varr xs, .varr ys => BVal.beqList xs ys
  | .vobj fs, .vobj gs => BVal.beqFields fs gs
  | _, _ => false

/-- Boolean equality on value lists. -/
def BVal.beqList : List BVal → List BVal → Bool
  | [], [] => true
  | x :: xs, y :: ys => BVal.beq x y && BVal.beqList xs ys
  | _, _ => false

/-- Boolean equality on field lists. -/
def BVal.beqFields : List (String × BVal) → List (String × BVal) → Bool
  | [], [] => true
  | (k, v) :: fs, (l, w) :: gs => k == l && BVal.beq v w && BVal.beqFields fs gs
  | _, _ => false

end

mutual

theorem BVal.eq_of_beq : ∀ a b : BVal, BVal.beq a b = true → a = b
  | .vnull, .vnull, _ => rfl
  | .vbool a, .vbool b, h => by simp [BVal.beq] at h; simp [h]
  | .vnum a, .vnum b, h => by simp [BVal.beq] at h; simp [h]
  | .vstr a, .vstr b, h => by simp [BVal.beq] at h; simp [h]
  | .voidv a, .voidv b, h => by simp [BVal.beq] at h; simp [h]
  | .varr xs, .varr ys, h => by
      rw [BVal.eqList_of_beqList xs ys (by simpa [BVal.beq] using h)]
  | .vobj fs, .vobj gs, h => by
      rw [BVal.eqFields_of_beqFields fs gs (by simpa [BVal.beq] using h)]

theorem BVal.eqList_of_beqList : ∀ xs ys : List BVal, BVal.beqList xs ys = true → xs = ys
  | [], [], _ => rfl
  | x :: xs, y :: ys, h => by
      simp only [BVal.beqList, Bool.and_eq_true] at h
      rw [BVal.eq_of_beq x y h.1, BVal.eqList_of_beqList xs ys h.2]

theorem BVal.eqFields_of_beqFields :
    ∀ fs gs : List (String × BVal), BVal.beqFields fs gs = true → fs = gs
  | [], [], _ => rfl
  | (k, v) :: fs, (l, w) :: gs, h => by
      simp only [BVal.beqFields, Bool.and_eq_true] at h
      rw [BVal.eq_of_beq v w h.1.2, BVal.eqFields_of_beqFields fs gs h.2]
      simp only [beq_iff_eq] at h
      rw [h.1.1]

end

mutual

theorem BVal.beq_refl : ∀ a : BVal, BVal.beq a a = true
  | .vnull => rfl
  | .vbool a => by simp [BVal.beq]
  | .vnum a => by simp [BVal.beq]
  | .vstr a => by simp [BVal.beq]
  | .voidv a => by simp [BVal.beq]
  | .varr xs => by simpa [BVal.beq] using BVal.beqList_refl xs
  | .vobj fs => by simpa [BVal.beq] using BVal.beqFields_refl fs

theorem BVal.beqList_refl : ∀ xs : List BVal, BVal.beqList xs xs = true
  | [] => rfl
  | x :: xs => by
      simp only [BVal.beqList, Bool.and_eq_true]
      exact ⟨BVal.beq_refl x, BVal.beqList_refl xs⟩

theorem BVal.beqFields_refl : ∀ fs : List (String × BVal), BVal.beqFields fs fs = true
  | [] => rfl
  | (k, v) :: fs => by
      simp only [BVal.beqFields, Bool.and_eq_true]
      exact ⟨⟨by simp, BVal.beq_refl v⟩, BVal.beqFields_refl fs⟩

end

instance : DecidableEq BVal := fun a b =>
  if h : BVal.beq a b = true then isTrue (BVal.eq_of_beq a b h)
  else isFalse (fun he => h (he ▸ BVal.beq_refl a))

/-- A document: an ordered list of named fields, as a parsed JSON object
or a stored BSON document. -/
abbrev Doc := List (String × BVal)

/-- Read field `k` of a document (first occurrence). -/
def getField (d : Doc) (k : String) : Option BVal :=
  (d.find? (fun p => p.1 = k)).map (fun p => p.2)

/-- Write field `k` of a document: replace the first occurrence in
place, or append the field if absent.  This is both JavaScript property
assignment and the effect of a single '$set' entry on a stored
document. -/
def setField : Doc → String → BVal → Doc
  | [], k, v => [(k, v)]
  | (l, w) :: rest, k, v =>
      if l = k then (k, v) :: rest else (l, w) :: setField rest k v

theorem getField_setField_self (d : Doc) (k : String) (v : BVal) :
    getField (setField d k v) k = some v := by
  induction d with
  | nil => simp [setField, getField]
  | cons p rest ih =>
      obtain ⟨l, w⟩ := p
      by_cases h : l = k
      · simp [setField, getField, h]
      · simp [setField, getField, h, List.find?]
        simpa [getField] using ih

theorem getField_setField_ne (d : Doc) (k k' : String) (v : BVal) (h : k' ≠ k) :
    getField (setField d k v) k' = getField d k' := by
  induction d with
  | nil => simp [setField, getField, List.find?, Ne.symm h]
  | cons p rest ih =>
      obtain ⟨l, w⟩ := p
      by_cases hl : l = k
      · subst hl
        simp [setField, getField, List.find?, Ne.symm h]
      · by_cases hl' : l = k'
        · subst hl'
          simp [setField, getField, List.find?, hl]
        · simp only [setField, if_neg hl]
          simp only [getField, List.find?, hl', decide_eq_true_eq] at *
          simpa [hl'] using ih

/-- Apply a '$set' document field by field, left to right, to a stored
document (the effect of update: set-fields in updateOne). -/
def applySet (d : Doc) : Doc → Doc
  | [] => d
  | (k, v) :: fs => applySet (setField d k v) fs

theorem getField_applySet_of_none (fs : List (String × BVal)) :
    ∀ (d : Doc) (k : String), getField fs k = none →
      getField (applySet d fs) k = getField d k := by
  induction fs with
  | nil => intro d k _; rfl
  | cons p rest ih =>
      intro d k h
      obtain ⟨l, w⟩ := p
      simp only [getField, List.find?, Option.map_eq_none] at h
      by_cases hl : l = k
      · simp [hl] at h
      · simp only [hl, decide_False] at h
        simp only [applySet]
        rw [ih (setField d l w) k (by simpa [getField] using h)]
        exact getField_setField_ne d l k w (Ne.symm hl)

theorem getField_none_of_not_memKeys (fs : List (String × BVal)) (k : String)
    (h : k ∉ fs.map Prod.fst) : getField fs k = none := by
  induction fs with
  | nil => rfl
  | cons p rest ih =>
      obtain ⟨l, w⟩ := p
      simp only [List.map_cons, List.mem_cons, not_or] at h
      simp only [getField, List.find?, Ne.symm h.1, decide_False, Option.map_eq_none]
      simpa [getField] using ih h.2

theorem getField_applySet_of_nodup (fs : List (String × BVal)) :
    ∀ (d : Doc) (k : String) (v : BVal), (fs.map Prod.fst).Nodup →
      getField fs k = some v → getField (applySet d fs) k = some v := by
  induction fs with
  | nil => intro d k v _ h; simp [getField] at h
  | cons p rest ih =>
      intro d k v hnd h
      obtain ⟨l, w⟩ := p
      simp only [List.map_cons, List.nodup_cons] at hnd
      by_cases hl : l = k
      · subst hl
        simp only [getField, List.find?, decide_True, Option.map_some] at h
        cases h
        simp only [applySet]
        rw [getField_applySet_of_none rest (setField d l w) l
          (getField_none_of_not_memKeys rest l hnd.1)]
        exact getField_setField_self d l w
      · simp only [getField, List.find?, hl, decide_False] at h
        simp only [applySet]
        exact ih (setField d l w) k v hnd.2 (by simpa [getField] using h)

/-- Hex digit characters, 0 to 9 then a to f. -/
def hexChar (d : Nat) : Char :=
  if d < 10 then Char.ofNat (48 + d) else Char.ofNat (87 + d)

/-- Is `c` one of the characters an ObjectId hex string may contain. -/
def isHexDigit (c : Char) : Bool :=
  decide (('0' ≤ c ∧ c ≤ '9') ∨ ('a' ≤ c ∧ c ≤ 'f') ∨ ('A' ≤ c ∧ c ≤ 'F'))

/-- Lower-case a hex character (ObjectId hex is case-insensitive; the
driver stores the twelve bytes, which we normalize as lower-case). -/
def normHexChar (c : Char) : Char :=
  if 'A' ≤ c ∧ c ≤ 'F' then Char.ofNat (c.toNat + 32) else c

/-- Big-endian base-16 digits of `n`, padded or truncated to `k` digits.
Written with a bare recursor so that it evaluates cheaply. -/
def hexDigits (k : Nat) (n : Nat) : List Nat :=
  Nat.rec (motive := fun _ => Nat → List Nat) (fun _ => [])
    (fun _ ih n => ih (n / 16) ++ [n % 16]) k n

theorem hexDigits_zero (n : Nat) : hexDigits 0 n = [] := rfl

theorem hexDigits_succ (k n : Nat) :
    hexDigits (k + 1) n = hexDigits k (n / 16) ++ [n % 16] := rfl

/-- Recombine base-16 digits. -/
def decodeDigits (ds : List Nat) : Nat :=
  ds.foldl (fun a d => a * 16 + d) 0

theorem decodeDigits_append_singleton (ds : List Nat) (d : Nat) :
    decodeDigits (ds ++ [d]) = decodeDigits ds * 16 + d := by
  simp [decodeDigits, List.foldl_append]

theorem decodeDigits_hexDigits : ∀ (k n : Nat), n < 16 ^ k →
    decodeDigits (hexDigits k n) = n := by
  intro k
  induction k with
  | zero => intro n h; interval_cases n; rfl
  | succ k ih =>
      intro n h
      have hdiv : n / 16 < 16 ^ k := by
        rw [Nat.div_lt_iff_lt_mul (by norm_num)]
        calc n < 16 ^ (k + 1) := h
        _ = 16 ^ k * 16 := by ring
      simp only [hexDigits_succ, decodeDigits_append_singleton, ih (n / 16) hdiv]
      omega

theorem hexDigits_length (k : Nat) : ∀ n, (hexDigits k n).length = k := by
  induction k with
  | zero => intro n; rfl
  | succ k ih => intro n; simp [hexDigits_succ, ih]

theorem hexDigits_lt (k : Nat) : ∀ n, ∀ d ∈ hexDigits k n, d < 16 := by
  induction k with
  | zero => intro n d h; simp [hexDigits_zero] at h
  | succ k ih =>
      intro n d h
      simp only [hexDigits_succ, List.mem_append, List.mem_singleton] at h
      rcases h with h | h
      · exact ih (n / 16) d h
      · omega

/-- An ObjectId hex string freshly generated from counter `n`. -/
def oidHex (n : Nat) : String :=
  String.mk ((hexDigits 24 n).map hexChar)

theorem hexChar_inj : ∀ a < 16, ∀ b < 16, hexChar a = hexChar b → a = b := by
  decide

theorem isHexDigit_hexChar : ∀ d < 16, isHexDigit (hexChar d) = true := by
  decide

theorem normHexChar_hexChar : ∀ d < 16, normHexChar (hexChar d) = hexChar d := by
  decide

theorem map_hexChar_inj : ∀ xs ys : List Nat, (∀ d ∈ xs, d < 16) → (∀ d ∈ ys, d < 16) →
    xs.map hexChar = ys.map hexChar → xs = ys := by
  intro xs
  induction xs with
  | nil => intro ys _ _ h; cases ys <;> simp_all
  | cons x xs ih =>
      intro ys hx hy h
      cases ys with
      | nil => simp at h
      | cons y ys =>
          simp only [List.map_cons, List.cons.injEq] at h
          have hxy : x = y :=
            hexChar_inj x (hx x (by simp)) y (hy y (by simp)) h.1
          rw [hxy, ih ys (fun d hd => hx d (by simp [hd])) (fun d hd => hy d (by simp [hd])) h.2]

theorem oidHex_inj (m n : Nat) (hm : m < 16 ^ 24) (hn : n < 16 ^ 24)
    (h : oidHex m = oidHex n) : m = n := by
  have hdata : (hexDigits 24 m).map hexChar = (hexDigits 24 n).map hexChar := by
    have h' := h
    simp only [oidHex] at h'
    injection h'
  have hds : hexDigits 24 m = hexDigits 24 n :=
    map_hexChar_inj _ _ (hexDigits_lt 24 m) (hexDigits_lt 24 n) hdata
  calc m = decodeDigits (hexDigits 24 m) := (decodeDigits_hexDigits 24 m hm).symm
  _ = decodeDigits (hexDigits 24 n) := by rw [hds]
  _ = n := decodeDigits_hexDigits 24 n hn

/-- Model of the ObjectId constructor applied to an identifier string
from the request: exactly 24 hex characters are accepted, yielding the
normalized (lower-case) id; any other string throws (none). -/
def parseObjectId (s : String) : Option String :=
  if s.length = 24 ∧ s.data.all isHexDigit then
    some (String.mk (s.data.map normHexChar))
  else none

theorem parse_oidHex (n : Nat) : parseObjectId (oidHex n) = some (oidHex n) := by
  have hlen : (oidHex n).length = 24 := by
    simp [oidHex, String.length, hexDigits_length]
  have hall : (oidHex n).data.all isHexDigit = true := by
    simp only [oidHex, List.all_eq_true]
    intro c hc
    simp only [List.mem_map] at hc
    obtain ⟨d, hd, rfl⟩ := hc
    exact isHexDigit_hexChar d (hexDigits_lt 24 n d hd)
  have hnorm : (oidHex n).data.map normHexChar = (oidHex n).data := by
    simp only [oidHex, List.map_map]
    refine List.map_congr_left (fun d hd => ?_)
    exact normHexChar_hexChar d (hexDigits_lt 24 n d hd)
  rw [parseObjectId, if_pos ⟨hlen, hall⟩, hnorm]

/-- Does stored document `d` match the route filter on _id with
ObjectId `o`: an ObjectId filter value equals only a stored ObjectId
with the same bytes. -/
def matchesId (d : Doc) (o : String) : Bool :=
  match getField d "_id" with
  | some (.voidv s) => s = o
  | _ => false

/-- Model of collection.findOne with an _id filter: the first matching
document, if any. -/
def findOne (ls : List Doc) (o : String) : Option Doc :=
  ls.find? (fun d => matchesId d o)

/-- Model of collection.insertOne: a document lacking _id gets a fresh
driver-generated ObjectId appended to it (the driver mutates the passed
document in place); inserting an _id already present is a
duplicate-key error (none).  Returns the grown collection, the
insertedId, and the next generator state. -/
def insertOne (coll : List Doc) (ctr : Nat) (doc : Doc) :
    Option (List Doc × BVal × Nat) :=
  let p : Doc × BVal × Nat :=
    match getField doc "_id" with
    | some v => (doc, v, ctr)
    | none =>
        (setField doc "_id" (BVal.voidv (oidHex ctr)), BVal.voidv (oidHex ctr), ctr + 1)
  if coll.any (fun d => getField d "_id" = some p.2.1) then none
  else some (coll ++ [p.1], p.2.1, p.2.2)

/-- Rewrite the first document matching the _id filter with a '$set'
document.  Mongod rejects an update that would alter the immutable
_id field of a matched document (none); no match is a successful
no-op. -/
def setFirst : List Doc → String → Doc → Option (List Doc)
  | [], _, _ => some []
  | d :: rest, o, fields =>
      if matchesId d o then
        match getField fields "_id" with
        | some w =>
            if getField d "_id" = some w then some (applySet d fields :: rest)
            else none
        | none => some (applySet d fields :: rest)
      else (setFirst rest o fields).map (fun ls => d :: ls)

/-- Model of collection.updateOne with an _id filter and an update of
the shape update: set-fields.  Mongod additionally rejects an empty
'$set' document. -/
def updateOne (ls : List Doc) (o : String) (fields : Doc) : Option (List Doc) :=
  if fields.isEmpty then none else setFirst ls o fields

/-- Model of collection.deleteOne with an _id filter: remove the first
matching document, if any. -/
def deleteOne : List Doc → String → List Doc
  | [], _ => []
  | d :: rest, o => if matchesId d o then rest else d :: deleteOne rest o

/-- One bulk entry of the updateSpaces route: set the spaces field of
the first document matching the id. -/
def setSpaces : List Doc → String → BVal → List Doc
  | [], _, _ => []
  | d :: rest, o, v =>
      if matchesId d o then setField d "spaces" v :: rest
      else d :: setSpaces rest o v

/-- Model of collection.bulkWrite on the updateOne operations built by
the updateSpaces route: apply them in order, counting matched and
modified documents (the insert, upsert and delete counts of the raw
result are identically zero here and are elided). -/
def runBulk : List Doc → List (String × BVal) → List Doc × Nat × Nat
  | ls, [] => (ls, 0, 0)
  | ls, (o, v) :: rest =>
      match findOne ls o with
      | none => runBulk ls rest
      | some d =>
          let r := runBulk (setSpaces ls o v) rest
          (r.1, r.2.1 + 1, r.2.2 + (if getField d "spaces" = some v then 0 else 1))

theorem updateOne_spaces (ls : List Doc) (o : String) (v : BVal) :
    updateOne ls o [("spaces", v)] = some (setSpaces ls o v) := by
  rw [updateOne]
  simp only [List.isEmpty, if_false, Bool.false_eq_true]
  induction ls with
  | nil => rfl
  | cons d rest ih =>
      by_cases hm : matchesId d o
      · simp [setFirst, setSpaces, hm, getField, List.find?, applySet]
      · simp only [setFirst, setSpaces, hm, if_false, Bool.false_eq_true, ih]
        rfl

/-- The server state: the two collections and the fresh-ObjectId
generator state of the driver. -/
structure DB where
  lessons : List Doc
  orders : List Doc
  nextOid : Nat
  deriving Repr, DecidableEq

/-- An HTTP response: status code and JSON body. -/
structure Resp where
  status : Nat
  body : BVal
  deriving Repr, DecidableEq

/-- The error body every catch branch sends. -/
def errBody (m : String) : BVal := .vobj [("error", .vstr m)]

/-- The message body the update, delete and order routes send. -/
def msgBody (m : String) : BVal := .vobj [("message", .vstr m)]

/-- GET /lessons: all lesson documents. -/
def getLessons (db : DB) : Resp :=
  ⟨200, .varr (db.lessons.map .vobj)⟩

/-- GET /lessons/:id: the lesson with the given id, 404 if absent, 500
if the ObjectId constructor throws. -/
def getLessonById (db : DB) (idStr : String) : Resp :=
  match parseObjectId idStr with
  | none => ⟨500, errBody "Failed to fetch lesson"⟩
  | some o =>
      match findOne db.lessons o with
      | some d => ⟨200, .vobj d⟩
      | none => ⟨404, errBody "Lesson not found"⟩

/-- POST /lessons: insert the body, answer 201 with the body plus the
insertedId spread in. -/
def postLessons (db : DB) (body : Doc) : DB × Resp :=
  match insertOne db.lessons db.nextOid body with
  | none => (db, ⟨500, errBody "Failed to add lesson"⟩)
  | some (ls, idv, ctr) =>
      ({ db with lessons := ls, nextOid := ctr },
       ⟨201, .vobj (setField body "_id" idv)⟩)

/-- One entry of the updateSpaces request body. -/
structure SpaceUpdate where
  id : String
  spaces : BVal
  deriving Repr, DecidableEq

/-- The ObjectId conversions the updateSpaces route performs while
building its bulk operations; the first invalid id throws. -/
def parseOps : List SpaceUpdate → Option (List (String × BVal))
  | [] => some []
  | u :: us =>
      match parseObjectId u.id, parseOps us with
      | some o, some ops => some ((o, u.spaces) :: ops)
      | _, _ => none

/-- PUT /lessons/updateSpaces: build one updateOne per entry and submit
them as one bulkWrite; the driver rejects an empty batch, and any
thrown error answers 500. -/
def putUpdateSpaces (db : DB) (updates : List SpaceUpdate) : DB × Resp :=
  match parseOps updates with
  | none => (db, ⟨500, errBody "Failed to update spaces"⟩)
  | some ops =>
      if ops.isEmpty then (db, ⟨500, errBody "Failed to update spaces"⟩)
      else
        let r := runBulk db.lessons ops
        ({ db with lessons := r.1 },
         ⟨200, .vobj [("message", .vstr "Spaces updated successfully"),
                       ("result", .vobj [("matchedCount", .vnum (r.2.1 : Int)),
                                         ("modifiedCount", .vnum (r.2.2 : Int))])]⟩)

/-- PUT /lessons/:id: '$set' the whole body on the matching lesson;
no 404 distinction, any thrown error answers 500. -/
def putLessonById (db : DB) (idStr : String) (body : Doc) : DB × Resp :=
  match parseObjectId idStr with
  | none => (db, ⟨500, errBody "Failed to update lesson"⟩)
  | some o =>
      match updateOne db.lessons o body with
      | none => (db, ⟨500, errBody "Failed to update lesson"⟩)
      | some ls =>
          ({ db with lessons := ls }, ⟨200, msgBody "Lesson updated successfully"⟩)

/-- DELETE /lessons/:id: deleteOne on the matching lesson; no 404
distinction, any thrown error answers 500. -/
def deleteLessonById (db : DB) (idStr : String) : DB × Resp :=
  match parseObjectId idStr with
  | none => (db, ⟨500, errBody "Failed to delete lesson"⟩)
  | some o =>
      ({ db with lessons := deleteOne db.lessons o },
       ⟨200, msgBody "Lesson deleted successfully"⟩)

/-- POST /order_placed: insert the body as an order, answer 201 with a
fixed message. -/
def postOrder (db : DB) (body : Doc) : DB × Resp :=
  match insertOne db.orders db.nextOid body with
  | none => (db, ⟨500, errBody "Failed to place order"⟩)
  | some (os, _, ctr) =>
      ({ db with orders := os, nextOid := ctr },
       ⟨201, msgBody "Order placed successfully"⟩)

/-- GET /order_placed: all order documents. -/
def getOrders (db : DB) : Resp :=
  ⟨200, .varr (db.orders.map .vobj)⟩

/-- The response of the global error handler. -/
def globalErrorResp : Resp := ⟨500, errBody "An error occurred"⟩

/-- The response of the image middleware when the file is missing. -/
def imageMissingResp : Resp := ⟨404, errBody "Image not found"⟩

theorem matchesId_setField (d : Doc) (k : String) (v : BVal) (o : String)
    (h : k ≠ "_id") : matchesId (setField d k v) o = matchesId d o := by
  unfold matchesId
  rw [getField_setField_ne d k "_id" v (Ne.symm h)]

theorem findOne_setSpaces_self (ls : List Doc) (o : String) (v : BVal) (d : Doc)
    (h : findOne ls o = some d) :
    findOne (setSpaces ls o v) o = some (setField d "spaces" v) := by
  induction ls with
  | nil => simp [findOne] at h
  | cons e rest ih =>
      by_cases hm : matchesId e o
      · have hd : e = d := by
          simp only [findOne, List.find?, hm] at h
          exact Option.some.inj h
        subst hd
        have hm2 : matchesId (setField e "spaces" v) o = true := by
          rw [matchesId_setField e "spaces" v o (by decide)]
          exact hm
        simp only [setSpaces, hm, if_true, findOne, List.find?, hm2]
      · simp only [findOne, List.find?, hm] at h
        simp only [setSpaces, hm, if_false, Bool.false_eq_true, findOne, List.find?]
        exact ih h

theorem matchesId_unique (d : Doc) (o o' : String)
    (h : matchesId d o = true) (h' : matchesId d o' = true) : o = o' := by
  unfold matchesId at h h'
  cases hg : getField d "_id" with
  | none => rw [hg] at h; simp at h
  | some v =>
      rw [hg] at h h'
      cases v <;> simp_all

theorem findOne_setSpaces_ne (ls : List Doc) (o o' : String) (v : BVal)
    (hne : o' ≠ o) : findOne (setSpaces ls o v) o' = findOne ls o' := by
  induction ls with
  | nil => rfl
  | cons e rest ih =>
      by_cases hm : matchesId e o
      · have hm' : matchesId e o' = false := by
          by_contra hx
          exact hne (matchesId_unique e o' o (by simpa using hx) hm)
        have hm2 : matchesId (setField e "spaces" v) o' = false := by
          rw [matchesId_setField e "spaces" v o' (by decide)]
          exact hm'
        simp only [setSpaces, hm, if_true, findOne, List.find?, hm2, hm']
      · by_cases hm' : matchesId e o'
        · simp only [setSpaces, hm, if_false, Bool.false_eq_true, findOne, List.find?, hm']
        · simp only [setSpaces, hm, if_false, Bool.false_eq_true, findOne, List.find?,
            hm', Bool.false_eq_true]
          exact ih

theorem runBulk_findOne_not_mem (ops : List (String × BVal)) :
    ∀ (ls : List Doc) (o : String), o ∉ ops.map Prod.fst →
      findOne (runBulk ls ops).1 o = findOne ls o := by
  induction ops with
  | nil => intro ls o _; rfl
  | cons p rest ih =>
      intro ls o h
      obtain ⟨o', v⟩ := p
      simp only [List.map_cons, List.mem_cons, not_or] at h
      cases hf : findOne ls o' with
      | none =>
          simp only [runBulk, hf]
          exact ih ls o h.2
      | some d =>
          simp only [runBulk, hf]
          rw [ih _ o h.2, findOne_setSpaces_ne ls o' o v h.1]

theorem runBulk_spaces (ops : List (String × BVal)) :
    ∀ ls : List Doc, (ops.map Prod.fst).Nodup →
      (∀ p ∈ ops, (findOne ls p.1).isSome) →
      ∀ p ∈ ops, ∃ d, findOne (runBulk ls ops).1 p.1 = some d ∧
        getField d "spaces" = some p.2 := by
  induction ops with
  | nil => intro ls _ _ p hp; simp at hp
  | cons q rest ih =>
      intro ls hnd hex p hp
      obtain ⟨o, v⟩ := q
      simp only [List.map_cons, List.nodup_cons] at hnd
      have hq := hex (o, v) (by simp)
      cases hf : findOne ls o with
      | none => rw [hf] at hq; simp at hq
      | some d0 =>
          rcases List.mem_cons.mp hp with he | hp'
          · subst he
            refine ⟨setField d0 "spaces" v, ?_, getField_setField_self d0 _ v⟩
            simp only [runBulk, hf]
            rw [runBulk_findOne_not_mem rest _ o hnd.1]
            exact findOne_setSpaces_self ls o v d0 hf
          · have hne : p.1 ≠ o := by
              intro he
              exact hnd.1 (he ▸ List.mem_map_of_mem Prod.fst hp')
            have hex' : ∀ q' ∈ rest, (findOne (setSpaces ls o v) q'.1).isSome := by
              intro q' hq'
              have hq'ne : q'.1 ≠ o := by
                intro he
                exact hnd.1 (he ▸ List.mem_map_of_mem Prod.fst hq')
              rw [findOne_setSpaces_ne ls o q'.1 v hq'ne]
              exact hex q' (by simp [hq'])
            have hmain := ih (setSpaces ls o v) hnd.2 hex' p hp'
            simpa only [runBulk, hf] using hmain

theorem setSpaces_forall₂ (ls : List Doc) (o : String) (v : BVal) :
    List.Forall₂ (fun a b => b = a ∨ (matchesId a o = true ∧ b = setField a "spaces" v))
      ls (setSpaces ls o v) := by
  induction ls with
  | nil => exact List.Forall₂.nil
  | cons e rest ih =>
      by_cases hm : matchesId e o
      · simp only [setSpaces, hm, if_true]
        exact List.Forall₂.cons (Or.inr ⟨hm, rfl⟩)
          (List.forall₂_same.mpr (fun a _ => Or.inl rfl))
      · simp only [setSpaces, hm, if_false, Bool.false_eq_true]
        exact List.Forall₂.cons (Or.inl rfl) ih

theorem forall₂_comp {α β γ : Type} {R : α → β → Prop} {S : β → γ → Prop}
    {T : α → γ → Prop} (h : ∀ a b c, R a b → S b c → T a c) :
    ∀ {l₁ : List α} {l₂ : List β} {l₃ : List γ},
      List.Forall₂ R l₁ l₂ → List.Forall₂ S l₂ l₃ → List.Forall₂ T l₁ l₃ := by
  intro l₁ l₂ l₃ h12
  induction h12 generalizing l₃ with
  | nil => intro h23; cases h23; exact .nil
  | cons hab hrest ih =>
      intro h23
      cases h23 with
      | cons hbc hrest2 => exact .cons (h _ _ _ hab hbc) (ih hrest2)

theorem runBulk_forall₂ (ops : List (String × BVal)) :
    ∀ ls : List Doc, List.Forall₂ (fun d d' =>
        (∀ k, k ≠ "spaces" → getField d' k = getField d k) ∧
        ((∀ p ∈ ops, matchesId d p.1 = false) → d' = d))
      ls (runBulk ls ops).1 := by
  induction ops with
  | nil =>
      intro ls
      exact List.forall₂_same.mpr (fun d _ => ⟨fun k _ => rfl, fun _ => rfl⟩)
  | cons q rest ih =>
      intro ls
      obtain ⟨o, v⟩ := q
      cases hf : findOne ls o with
      | none =>
          simp only [runBulk, hf]
          refine (ih ls).imp ?_
          rintro d d' ⟨h1, h2⟩
          exact ⟨h1, fun hall => h2 (fun p hp => hall p (by simp [hp]))⟩
      | some d0 =>
          simp only [runBulk, hf]
          refine forall₂_comp ?_ (setSpaces_forall₂ ls o v) (ih (setSpaces ls o v))
          rintro a b c hab ⟨hc1, hc2⟩
          constructor
          · intro k hk
            rcases hab with rfl | ⟨hm, rfl⟩
            · exact hc1 k hk
            · rw [hc1 k hk, getField_setField_ne a "spaces" k v hk]
          · intro hall
            have hao : matchesId a o = false := hall (o, v) (by simp)
            rcases hab with rfl | ⟨hm, hb⟩
            · exact hc2 (fun p hp => hall p (by simp [hp]))
            · rw [hm] at hao
              cases hao

theorem setFirst_nomatch (ls : List Doc) (o : String) (fields : Doc)
    (h : ∀ d ∈ ls, matchesId d o = false) : setFirst ls o fields = some ls := by
  induction ls with
  | nil => rfl
  | cons e rest ih =>
      have he : matchesId e o = false := h e (by simp)
      simp only [setFirst, he, Bool.false_eq_true, if_false]
      rw [ih (fun d hd => h d (by simp [hd]))]
      rfl

theorem setFirst_forall₂ (ls : List Doc) (o : String) (fields : Doc)
    (hnd : (fields.map Prod.fst).Nodup) :
    ∀ ls', setFirst ls o fields = some ls' →
      List.Forall₂ (fun d d' =>
        (∀ k, getField fields k = none → getField d' k = getField d k) ∧
        getField d' "_id" = getField d "_id") ls ls' := by
  induction ls with
  | nil => intro ls' h; cases h; exact .nil
  | cons e rest ih =>
      intro ls' h
      by_cases hm : matchesId e o
      · simp only [setFirst, hm, if_true] at h
        cases hg : getField fields "_id" with
        | some w =>
            rw [hg] at h
            dsimp only at h
            by_cases hid : getField e "_id" = some w
            · rw [if_pos hid] at h
              cases h
              refine .cons ⟨?_, ?_⟩
                (List.forall₂_same.mpr fun d _ => ⟨fun k _ => rfl, rfl⟩)
              · intro k hk
                exact getField_applySet_of_none fields e k hk
              · rw [getField_applySet_of_nodup fields e "_id" w hnd hg, hid]
            · rw [if_neg hid] at h
              cases h
        | none =>
            rw [hg] at h
            dsimp only at h
            cases h
            refine .cons ⟨?_, ?_⟩
              (List.forall₂_same.mpr fun d _ => ⟨fun k _ => rfl, rfl⟩)
            · intro k hk
              exact getField_applySet_of_none fields e k hk
            · exact getField_applySet_of_none fields e "_id" hg
      · simp only [setFirst, hm, Bool.false_eq_true, if_false] at h
        cases hr : setFirst rest o fields with
        | none => rw [hr] at h; cases h
        | some rest' =>
            rw [hr] at h
            cases h
            exact .cons ⟨fun k _ => rfl, rfl⟩ (ih rest' hr)

theorem deleteOne_nomatch (ls : List Doc) (o : String)
    (h : ∀ d ∈ ls, matchesId d o = false) : deleteOne ls o = ls := by
  induction ls with
  | nil => rfl
  | cons e rest ih =>
      have he : matchesId e o = false := h e (by simp)
      simp only [deleteOne, he, Bool.false_eq_true, if_false]
      rw [ih (fun d hd => h d (by simp [hd]))]

theorem matchesId_eq_false (d : Doc) (o : String)
    (h : getField d "_id" ≠ some (BVal.voidv o)) : matchesId d o = false := by
  unfold matchesId
  cases hg : getField d "_id" with
  | none => rfl
  | some v =>
      cases v with
      | voidv s =>
          simp only [decide_eq_false_iff_not]
          intro he
          exact h (by rw [hg, he])
      | vnull => rfl
      | vbool b => rfl
      | vnum n => rfl
      | vstr s => rfl
      | varr xs => rfl
      | vobj fs => rfl

theorem matchesId_getField (d : Doc) (o : String) (h : matchesId d o = true) :
    getField d "_id" = some (BVal.voidv o) := by
  unfold matchesId at h
  cases hg : getField d "_id" with
  | none => rw [hg] at h; cases h
  | some v => rw [hg] at h; cases v <;> simp_all

theorem matchesId_setId (doc : Doc) (o : String) :
    matchesId (setField doc "_id" (BVal.voidv o)) o = true := by
  unfold matchesId
  rw [getField_setField_self]
  simp

theorem findOne_append (ls ds : List Doc) (o : String)
    (h : ∀ d ∈ ls, matchesId d o = false) :
    findOne (ls ++ ds) o = findOne ds o := by
  induction ls with
  | nil => rfl
  | cons e rest ih =>
      have he : matchesId e o = false := h e (by simp)
      simp only [List.cons_append, findOne, List.find?, he]
      exact ih (fun d hd => h d (by simp [hd]))

/-- Distinct stored _id fields (what the unique index on _id grants). -/
def idsDistinct (ls : List Doc) : Prop :=
  ls.Pairwise (fun a b => getField a "_id" ≠ getField b "_id")

theorem findOne_eq_of_mem (ls : List Doc) (o : String) (d : Doc)
    (hdist : idsDistinct ls) (hd : d ∈ ls) (hm : matchesId d o = true) :
    findOne ls o = some d := by
  induction ls with
  | nil => simp at hd
  | cons e rest ih =>
      rw [idsDistinct, List.pairwise_cons] at hdist
      rcases List.mem_cons.mp hd with he | hd'
      · subst he
        simp only [findOne, List.find?, hm]
      · by_cases hme : matchesId e o
        · exact absurd (by
            rw [matchesId_getField e o hme, matchesId_getField d o hm])
            (hdist.1 d hd')
        · simp only [findOne, List.find?, hme, Bool.false_eq_true]
          exact ih hdist.2 hd'

/-- Reachable-state invariant tying stored lesson ObjectIds to the
driver's generator: every stored lesson ObjectId came from an earlier
counter value, and the id space is not exhausted. -/
def DB.wf (db : DB) : Prop :=
  db.nextOid < 16 ^ 24 ∧
  ∀ d ∈ db.lessons, ∀ s, getField d "_id" = some (BVal.voidv s) →
    ∃ k < db.nextOid, s = oidHex k

theorem fresh_not_stored (db : DB) (hwf : db.wf) :
    ∀ d ∈ db.lessons, getField d "_id" ≠ some (BVal.voidv (oidHex db.nextOid)) := by
  intro d hd he
  obtain ⟨k, hk, hs⟩ := hwf.2 d hd _ he
  have hkn : k = db.nextOid :=
    oidHex_inj k db.nextOid (lt_trans hk hwf.1) hwf.1 hs.symm
  omega

theorem insertOne_fresh (coll : List Doc) (ctr : Nat) (doc : Doc)
    (hid : getField doc "_id" = none)
    (hfresh : ∀ d ∈ coll, getField d "_id" ≠ some (BVal.voidv (oidHex ctr))) :
    insertOne coll ctr doc =
      some (coll ++ [setField doc "_id" (BVal.voidv (oidHex ctr))],
            BVal.voidv (oidHex ctr), ctr + 1) := by
  have hany : (coll.any (fun d =>
      getField d "_id" = some (BVal.voidv (oidHex ctr)))) = false := by
    rw [List.any_eq_false]
    intro d hd
    simpa using hfresh d hd
  unfold insertOne
  rw [hid]
  dsimp only
  rw [if_neg]
  intro hx
  rw [hany] at hx
  cases hx

theorem parseOps_ne_nil (us : List SpaceUpdate) (ops : List (String × BVal))
    (h : parseOps us = some ops) (hne : us ≠ []) : ops ≠ [] := by
  cases us with
  | nil => exact absurd rfl hne
  | cons u us =>
      simp only [parseOps] at h
      cases hp : parseObjectId u.id <;> rw [hp] at h
      · cases h
      · cases hq : parseOps us <;> rw [hq] at h
        · cases h
        · cases h
          simp

theorem parseOps_mem (us : List SpaceUpdate) :
    ∀ ops, parseOps us = some ops →
      ∀ p ∈ ops, ∃ u ∈ us, parseObjectId u.id = some p.1 ∧ u.spaces = p.2 := by
  induction us with
  | nil =>
      intro ops h p hp
      cases h
      simp at hp
  | cons u us ih =>
      intro ops h p hp
      simp only [parseOps] at h
      cases hpu : parseObjectId u.id <;> rw [hpu] at h
      · cases h
      · cases hq : parseOps us <;> rw [hq] at h
        · cases h
        · cases h
          rcases List.mem_cons.mp hp with he | hp'
          · exact ⟨u, by simp, by rw [hpu, he], by rw [he]⟩
          · obtain ⟨u', hu', h1, h2⟩ := ih _ hq p hp'
            exact ⟨u', by simp [hu'], h1, h2⟩

/-- A sample stored lesson used by the concrete witnesses below. -/
def lessonA : Doc :=
  [("_id", BVal.voidv "aaaaaaaaaaaaaaaaaaaaaaaa"),
   ("subject", BVal.vstr "math"), ("spaces", BVal.vnum 5)]

/-- A sample store holding just `lessonA`. -/
def dbA : DB := ⟨[lessonA], [], 0⟩

/-- C10: PUT /lessons/updateSpaces with an empty array body answers 500
with error Failed to update spaces rather than 200, because the driver
rejects an empty bulkWrite batch, and the whole state, in particular
the lessons collection, is unchanged. -/
theorem C10_empty_bulk_rejected (db : DB) :
    putUpdateSpaces db [] = (db, ⟨500, errBody "Failed to update spaces"⟩) := rfl

/-- C7: a path identifier that is not a valid ObjectId makes the
conversion throw; each per-id lesson route catches it and answers 500
(not 400) with its fixed error body, leaving the state unchanged. -/
theorem C7_invalid_id_500 (db : DB) (idStr : String) (body : Doc)
    (h : parseObjectId idStr = none) :
    getLessonById db idStr = ⟨500, errBody "Failed to fetch lesson"⟩ ∧
    putLessonById db idStr body = (db, ⟨500, errBody "Failed to update lesson"⟩) ∧
    deleteLessonById db idStr = (db, ⟨500, errBody "Failed to delete lesson"⟩) := by
  unfold getLessonById putLessonById deleteLessonById
  rw [h]
  exact ⟨rfl, rfl, rfl⟩

/-- Witness for C7 at the identifier abc, which is not 24 hex chars. -/
theorem C7_invalid_id_500_witness :
    parseObjectId "abc" = none ∧
    (getLessonById dbA "abc" = ⟨500, errBody "Failed to fetch lesson"⟩ ∧
     putLessonById dbA "abc" [] = (dbA, ⟨500, errBody "Failed to update lesson"⟩) ∧
     deleteLessonById dbA "abc" = (dbA, ⟨500, errBody "Failed to delete lesson"⟩)) :=
  ⟨by decide, C7_invalid_id_500 dbA "abc" [] (by decide)⟩

/-- C3: GET /lessons/:id with a well-formed identifier answers 404 with
error Lesson not found when no stored lesson carries it, and answers
200 with the stored lesson document itself when one carries it (ids
being distinct, as the unique index grants). -/
theorem C3_get_by_id (db : DB) (idStr o : String)
    (hp : parseObjectId idStr = some o) :
    ((∀ d ∈ db.lessons, matchesId d o = false) →
      getLessonById db idStr = ⟨404, errBody "Lesson not found"⟩) ∧
    (∀ d ∈ db.lessons, matchesId d o = true → idsDistinct db.lessons →
      getLessonById db idStr = ⟨200, .vobj d⟩) := by
  constructor
  · intro habs
    unfold getLessonById
    rw [hp]
    dsimp only
    have hnone : findOne db.lessons o = none := by
      rw [findOne, List.find?_eq_none]
      intro d hd
      simp [habs d hd]
    rw [hnone]
  · intro d hd hm hdist
    unfold getLessonById
    rw [hp]
    dsimp only
    rw [findOne_eq_of_mem db.lessons o d hdist hd hm]

/-- Witness for C3 at the sample store and the identifier of its one
stored lesson. -/
theorem C3_get_by_id_witness :
    parseObjectId "aaaaaaaaaaaaaaaaaaaaaaaa" = some "aaaaaaaaaaaaaaaaaaaaaaaa" ∧
    (((∀ d ∈ dbA.lessons, matchesId d "aaaaaaaaaaaaaaaaaaaaaaaa" = false) →
       getLessonById dbA "aaaaaaaaaaaaaaaaaaaaaaaa" = ⟨404, errBody "Lesson not found"⟩) ∧
     (∀ d ∈ dbA.lessons, matchesId d "aaaaaaaaaaaaaaaaaaaaaaaa" = true →
       idsDistinct dbA.lessons →
       getLessonById dbA "aaaaaaaaaaaaaaaaaaaaaaaa" = ⟨200, .vobj d⟩)) :=
  ⟨by decide,
   C3_get_by_id dbA "aaaaaaaaaaaaaaaaaaaaaaaa" "aaaaaaaaaaaaaaaaaaaaaaaa" (by decide)⟩

/-- C5 as stated is refuted at the empty request body: PUT /lessons/:id
with a well-formed identifier matching no stored lesson, but an empty
body object, answers 500, not 200, because mongod rejects the empty
'$set' the route builds from such a body. -/
theorem C5_counterexample :
    parseObjectId "cccccccccccccccccccccccc" = some "cccccccccccccccccccccccc" ∧
    (∀ d ∈ dbA.lessons, matchesId d "cccccccccccccccccccccccc" = false) ∧
    putLessonById dbA "cccccccccccccccccccccccc" [] =
      (dbA, ⟨500, errBody "Failed to update lesson"⟩) := by
  decide

/-- C5 (amended): for every well-formed identifier matching no stored
lesson, PUT /lessons/:id with a nonempty body and DELETE /lessons/:id
answer 200 with their fixed success messages, never a 404, and the
state, in particular the lessons collection, is unchanged.  (Amended
from the claim only by excluding the empty PUT body, which mongod
rejects as an empty '$set', answered 500.) -/
theorem C5_missing_id_reports_success (db : DB) (idStr o : String) (body : Doc)
    (hp : parseObjectId idStr = some o)
    (habs : ∀ d ∈ db.lessons, matchesId d o = false)
    (hbody : body ≠ []) :
    putLessonById db idStr body = (db, ⟨200, msgBody "Lesson updated successfully"⟩) ∧
    deleteLessonById db idStr = (db, ⟨200, msgBody "Lesson deleted successfully"⟩) := by
  have hne : body.isEmpty = false := by
    cases body with
    | nil => exact absurd rfl hbody
    | cons p rest => rfl
  constructor
  · simp only [putLessonById, hp, updateOne, hne, Bool.false_eq_true, if_false,
      setFirst_nomatch db.lessons o body habs]
  · simp only [deleteLessonById, hp, deleteOne_nomatch db.lessons o habs]

/-- Witness for the amended C5 at the sample store, a well-formed
absent identifier, and a one-field body. -/
theorem C5_missing_id_reports_success_witness :
    parseObjectId "cccccccccccccccccccccccc" = some "cccccccccccccccccccccccc" ∧
    (∀ d ∈ dbA.lessons, matchesId d "cccccccccccccccccccccccc" = false) ∧
    ([(("subject" : String), BVal.vstr "art")] ≠ ([] : Doc)) ∧
    (putLessonById dbA "cccccccccccccccccccccccc" [("subject", BVal.vstr "art")] =
       (dbA, ⟨200, msgBody "Lesson updated successfully"⟩) ∧
     deleteLessonById dbA "cccccccccccccccccccccccc" =
       (dbA, ⟨200, msgBody "Lesson deleted successfully"⟩)) :=
  ⟨by decide, by decide, by decide,
   C5_missing_id_reports_success dbA "cccccccccccccccccccccccc" "cccccccccccccccccccccccc"
     [("subject", BVal.vstr "art")] (by decide) (by decide) (by decide)⟩

/-- C9: PUT /lessons/:id merges field-wise rather than replacing the
document: for every request and store, every stored lesson keeps each
field the body does not mention, and no stored lesson's _id ever
changes, whatever the outcome (bodies are parsed JavaScript objects,
so their keys are distinct). -/
theorem C9_update_is_merge (db : DB) (idStr : String) (body : Doc)
    (hkeys : (body.map Prod.fst).Nodup) :
    List.Forall₂ (fun d d' =>
        (∀ k, getField body k = none → getField d' k = getField d k) ∧
        getField d' "_id" = getField d "_id")
      db.lessons (putLessonById db idStr body).1.lessons := by
  have hrefl : List.Forall₂ (fun d d' =>
      (∀ k, getField body k = none → getField d' k = getField d k) ∧
      getField d' "_id" = getField d "_id") db.lessons db.lessons :=
    List.forall₂_same.mpr fun d _ => ⟨fun k _ => rfl, rfl⟩
  cases hp : parseObjectId idStr with
  | none =>
      simp only [putLessonById, hp]
      exact hrefl
  | some o =>
      cases hu : updateOne db.lessons o body with
      | none =>
          simp only [putLessonById, hp, hu]
          exact hrefl
      | some ls' =>
          simp only [putLessonById, hp, hu]
          rw [updateOne] at hu
          by_cases hb : body.isEmpty
          · rw [if_pos hb] at hu
            cases hu
          · rw [if_neg hb] at hu
            exact setFirst_forall₂ db.lessons o body hkeys ls' hu

/-- Witness for C9 at the sample store and a one-field body. -/
theorem C9_update_is_merge_witness :
    (([(("price" : String), BVal.vnum 9)] : Doc).map Prod.fst).Nodup ∧
    List.Forall₂ (fun d d' =>
        (∀ k, getField [(("price" : String), BVal.vnum 9)] k = none →
          getField d' k = getField d k) ∧
        getField d' "_id" = getField d "_id")
      dbA.lessons
      (putLessonById dbA "aaaaaaaaaaaaaaaaaaaaaaaa" [("price", BVal.vnum 9)]).1.lessons :=
  ⟨by decide,
   C9_update_is_merge dbA "aaaaaaaaaaaaaaaaaaaaaaaa" [("price", BVal.vnum 9)] (by decide)⟩

/-- C8: the bulk updateSpaces route only ever touches the spaces field:
for every request and store, every stored lesson keeps every field
other than spaces, every stored lesson none of whose listed ids match
it is left entirely unchanged, and the orders collection is
untouched. -/
theorem C8_bulk_updates_only_spaces (db : DB) (updates : List SpaceUpdate) :
    (putUpdateSpaces db updates).1.orders = db.orders ∧
    List.Forall₂ (fun d d' =>
        (∀ k, k ≠ "spaces" → getField d' k = getField d k) ∧
        ((∀ u ∈ updates, ∀ o, parseObjectId u.id = some o → matchesId d o = false) →
          d' = d))
      db.lessons (putUpdateSpaces db updates).1.lessons := by
  have hrefl : List.Forall₂ (fun d d' =>
      (∀ k, k ≠ "spaces" → getField d' k = getField d k) ∧
      ((∀ u ∈ updates, ∀ o, parseObjectId u.id = some o → matchesId d o = false) →
        d' = d)) db.lessons db.lessons :=
    List.forall₂_same.mpr fun d _ => ⟨fun k _ => rfl, fun _ => rfl⟩
  cases hps : parseOps updates with
  | none =>
      simp only [putUpdateSpaces, hps]
      exact ⟨trivial, hrefl⟩
  | some ops =>
      by_cases hemp : ops.isEmpty
      · simp only [putUpdateSpaces, hps, hemp, if_true]
        exact ⟨trivial, hrefl⟩
      · have hemp' : ops.isEmpty = false := by
          cases hv : ops.isEmpty
          · rfl
          · exact absurd hv hemp
        simp only [putUpdateSpaces, hps, hemp', Bool.false_eq_true, if_false]
        refine ⟨trivial, ?_⟩
        refine (runBulk_forall₂ ops db.lessons).imp ?_
        rintro d d' ⟨h1, h2⟩
        refine ⟨h1, fun hall => h2 ?_⟩
        intro p hp
        obtain ⟨u, hu, hpu, hsp⟩ := parseOps_mem updates ops hps p hp
        exact hall u hu p.1 hpu

/-- C2: a bulk updateSpaces request whose entries carry well-formed,
pairwise-distinct identifiers of stored lessons answers 200, and
afterwards the lesson found under each listed id has its spaces field
equal to the value listed with that id, whatever it was before. -/
theorem C2_bulk_sets_listed_spaces (db : DB) (updates : List SpaceUpdate)
    (ops : List (String × BVal))
    (hops : parseOps updates = some ops)
    (hne : updates ≠ [])
    (hex : ∀ p ∈ ops, (findOne db.lessons p.1).isSome)
    (hnd : (ops.map Prod.fst).Nodup) :
    (putUpdateSpaces db updates).2.status = 200 ∧
    ∀ p ∈ ops, ∃ d, findOne (putUpdateSpaces db updates).1.lessons p.1 = some d ∧
      getField d "spaces" = some p.2 := by
  have hopsne := parseOps_ne_nil updates ops hops hne
  have hemp : ops.isEmpty = false := by
    cases ops with
    | nil => exact absurd rfl hopsne
    | cons p rest => rfl
  simp only [putUpdateSpaces, hops, hemp, Bool.false_eq_true, if_false]
  exact ⟨trivial, runBulk_spaces ops db.lessons hnd hex⟩

/-- Witness for C2 at the sample store, updating the spaces of its one
stored lesson from 5 to 2. -/
theorem C2_bulk_sets_listed_spaces_witness :
    parseOps [⟨"aaaaaaaaaaaaaaaaaaaaaaaa", BVal.vnum 2⟩] =
      some [("aaaaaaaaaaaaaaaaaaaaaaaa", BVal.vnum 2)] ∧
    ([⟨"aaaaaaaaaaaaaaaaaaaaaaaa", BVal.vnum 2⟩] : List SpaceUpdate) ≠ [] ∧
    (∀ p ∈ [(("aaaaaaaaaaaaaaaaaaaaaaaa" : String), BVal.vnum 2)],
      (findOne dbA.lessons p.1).isSome) ∧
    ([(("aaaaaaaaaaaaaaaaaaaaaaaa" : String), BVal.vnum 2)].map Prod.fst).Nodup ∧
    ((putUpdateSpaces dbA [⟨"aaaaaaaaaaaaaaaaaaaaaaaa", BVal.vnum 2⟩]).2.status = 200 ∧
     ∀ p ∈ [(("aaaaaaaaaaaaaaaaaaaaaaaa" : String), BVal.vnum 2)],
       ∃ d, findOne
           (putUpdateSpaces dbA [⟨"aaaaaaaaaaaaaaaaaaaaaaaa", BVal.vnum 2⟩]).1.lessons
           p.1 = some d ∧
         getField d "spaces" = some p.2) :=
  ⟨by decide, by decide, by decide, by decide,
   C2_bulk_sets_listed_spaces dbA [⟨"aaaaaaaaaaaaaaaaaaaaaaaa", BVal.vnum 2⟩]
     [("aaaaaaaaaaaaaaaaaaaaaaaa", BVal.vnum 2)]
     (by decide) (by decide) (by decide) (by decide)⟩

/-- C1: POST /lessons on a body without an _id, in a reachable store,
inserts and answers 201 with exactly the submitted fields plus a
freshly generated ObjectId distinct from every stored lesson's id, and
GET /lessons/:id on that id afterwards answers 200 with a document
carrying exactly the same fields. -/
theorem C1_create_then_fetch (db : DB) (body : Doc)
    (hwf : db.wf) (hid : getField body "_id" = none) :
    ∃ (rb : Doc) (s : String),
      (postLessons db body).2 = ⟨201, .vobj rb⟩ ∧
      getField rb "_id" = some (BVal.voidv s) ∧
      (∀ k, k ≠ "_id" → getField rb k = getField body k) ∧
      (∀ d ∈ db.lessons, getField d "_id" ≠ some (BVal.voidv s)) ∧
      ∃ d : Doc, getLessonById (postLessons db body).1 s = ⟨200, .vobj d⟩ ∧
        ∀ k, getField d k = getField rb k := by
  have hins := insertOne_fresh db.lessons db.nextOid body hid (fresh_not_stored db hwf)
  refine ⟨setField body "_id" (BVal.voidv (oidHex db.nextOid)), oidHex db.nextOid,
    ?_, getField_setField_self body "_id" _, ?_, fresh_not_stored db hwf, ?_⟩
  · simp only [postLessons, hins]
  · intro k hk
    exact getField_setField_ne body "_id" k _ hk
  · refine ⟨setField body "_id" (BVal.voidv (oidHex db.nextOid)), ?_, fun k => rfl⟩
    simp only [postLessons, hins]
    simp only [getLessonById, parse_oidHex]
    rw [findOne_append db.lessons _ (oidHex db.nextOid)
      (fun d hd => matchesId_eq_false d _ (fresh_not_stored db hwf d hd))]
    simp only [findOne, List.find?, matchesId_setId body (oidHex db.nextOid)]

/-- Witness for C1 at the empty store and a one-field body. -/
theorem C1_create_then_fetch_witness :
    DB.wf ⟨[], [], 0⟩ ∧
    getField [(("subject" : String), BVal.vstr "math")] "_id" = none ∧
    ∃ (rb : Doc) (s : String),
      (postLessons ⟨[], [], 0⟩ [("subject", BVal.vstr "math")]).2 = ⟨201, .vobj rb⟩ ∧
      getField rb "_id" = some (BVal.voidv s) ∧
      (∀ k, k ≠ "_id" → getField rb k = getField [(("subject" : String), BVal.vstr "math")] k) ∧
      (∀ d ∈ (⟨[], [], 0⟩ : DB).lessons, getField d "_id" ≠ some (BVal.voidv s)) ∧
      ∃ d : Doc,
        getLessonById (postLessons ⟨[], [], 0⟩ [("subject", BVal.vstr "math")]).1 s =
          ⟨200, .vobj d⟩ ∧
        ∀ k, getField d k = getField rb k := by
  have hw : DB.wf ⟨[], [], 0⟩ := by
    constructor
    · norm_num
    · simp
  exact ⟨hw, rfl, C1_create_then_fetch ⟨[], [], 0⟩ [("subject", BVal.vstr "math")] hw rfl⟩

/-- C4: POST /order_placed on a body without an _id (so that the insert
succeeds, the generated id being fresh among stored orders) answers 201
with message Order placed successfully, and GET /order_placed
afterwards answers 200 with an array containing a document carrying
exactly the submitted fields plus an assigned _id. -/
theorem C4_order_placed (db : DB) (body : Doc)
    (hid : getField body "_id" = none)
    (hfresh : ∀ d ∈ db.orders, getField d "_id" ≠ some (BVal.voidv (oidHex db.nextOid))) :
    (postOrder db body).2 = ⟨201, msgBody "Order placed successfully"⟩ ∧
    ∃ xs : List BVal, getOrders (postOrder db body).1 = ⟨200, .varr xs⟩ ∧
      ∃ d : Doc, BVal.vobj d ∈ xs ∧
        (∀ k, k ≠ "_id" → getField d k = getField body k) ∧
        ∃ s, getField d "_id" = some (BVal.voidv s) := by
  have hins := insertOne_fresh db.orders db.nextOid body hid hfresh
  constructor
  · simp only [postOrder, hins]
  · refine ⟨(db.orders ++ [setField body "_id" (BVal.voidv (oidHex db.nextOid))]).map .vobj,
      ?_, setField body "_id" (BVal.voidv (oidHex db.nextOid)), ?_, ?_,
      oidHex db.nextOid, getField_setField_self body "_id" _⟩
    · simp only [postOrder, hins, getOrders]
    · simp
    · intro k hk
      exact getField_setField_ne body "_id" k _ hk

/-- Witness for C4 at the empty store and a two-field order body. -/
theorem C4_order_placed_witness :
    getField [(("lessonId" : String), BVal.vstr "x"), ("quantity", BVal.vnum 1)] "_id" = none ∧
    (∀ d ∈ (⟨[], [], 0⟩ : DB).orders,
      getField d "_id" ≠ some (BVal.voidv (oidHex (⟨[], [], 0⟩ : DB).nextOid))) ∧
    ((postOrder ⟨[], [], 0⟩ [("lessonId", BVal.vstr "x"), ("quantity", BVal.vnum 1)]).2 =
       ⟨201, msgBody "Order placed successfully"⟩ ∧
     ∃ xs : List BVal,
       getOrders (postOrder ⟨[], [], 0⟩
           [("lessonId", BVal.vstr "x"), ("quantity", BVal.vnum 1)]).1 = ⟨200, .varr xs⟩ ∧
       ∃ d : Doc, BVal.vobj d ∈ xs ∧
         (∀ k, k ≠ "_id" →
           getField d k =
             getField [(("lessonId" : String), BVal.vstr "x"), ("quantity", BVal.vnum 1)] k) ∧
         ∃ s, getField d "_id" = some (BVal.voidv s)) :=
  ⟨rfl, by simp,
   C4_order_placed ⟨[], [], 0⟩ [("lessonId", BVal.vstr "x"), ("quantity", BVal.vnum 1)]
     rfl (by simp)⟩

/-- The fixed response messages hard-coded in the server's routes and
handlers; none carries any detail of the caught error. -/
def serverMessages : List String :=
  ["Failed to fetch lessons", "Lesson not found", "Failed to fetch lesson",
   "Failed to add lesson", "Failed to update spaces", "Failed to update lesson",
   "Failed to delete lesson", "Failed to place order", "Failed to fetch orders",
   "An error occurred", "Image not found"]

/-- The response discipline stated by the spec: a status among 200, 201,
404 and 500, never 400, and every non-success body a single-field error
object whose string is one of the fixed messages. -/
def goodResp (r : Resp) : Prop :=
  (r.status = 200 ∨ r.status = 201 ∨ r.status = 404 ∨ r.status = 500) ∧
  r.status ≠ 400 ∧
  (r.status ≠ 200 → r.status ≠ 201 → ∃ m ∈ serverMessages, r.body = errBody m)

theorem goodResp_ok (b : BVal) : goodResp ⟨200, b⟩ :=
  ⟨Or.inl rfl, by simp, fun h _ => absurd rfl h⟩

theorem goodResp_created (b : BVal) : goodResp ⟨201, b⟩ :=
  ⟨Or.inr (Or.inl rfl), by simp, fun _ h => absurd rfl h⟩

theorem goodResp_notFound (m : String) (hm : m ∈ serverMessages) :
    goodResp ⟨404, errBody m⟩ :=
  ⟨Or.inr (Or.inr (Or.inl rfl)), by simp, fun _ _ => ⟨m, hm, rfl⟩⟩

theorem goodResp_err (m : String) (hm : m ∈ serverMessages) :
    goodResp ⟨500, errBody m⟩ :=
  ⟨Or.inr (Or.inr (Or.inr rfl)), by simp, fun _ _ => ⟨m, hm, rfl⟩⟩

/-- C6: over the modelled behaviours, every response of every route has
status 200, 201, 404 or 500, never 400, and every failure body is a
single-field error object drawn from the fixed messages, so the caught
error's own detail never reaches the client; the global error handler's
and the image middleware's fixed responses obey the same discipline. -/
theorem C6_error_discipline (db : DB) (idStr : String) (body : Doc)
    (updates : List SpaceUpdate) :
    goodResp (getLessons db) ∧
    goodResp (getLessonById db idStr) ∧
    goodResp (postLessons db body).2 ∧
    goodResp (putUpdateSpaces db updates).2 ∧
    goodResp (putLessonById db idStr body).2 ∧
    goodResp (deleteLessonById db idStr).2 ∧
    goodResp (postOrder db body).2 ∧
    goodResp (getOrders db) ∧
    goodResp globalErrorResp ∧
    goodResp imageMissingResp := by
  refine ⟨goodResp_ok _, ?_, ?_, ?_, ?_, ?_, ?_, goodResp_ok _,
    goodResp_err "An error occurred" (by decide),
    goodResp_notFound "Image not found" (by decide)⟩
  · cases hp : parseObjectId idStr with
    | none =>
        simp only [getLessonById, hp]
        exact goodResp_err "Failed to fetch lesson" (by decide)
    | some o =>
        cases hf : findOne db.lessons o with
        | none =>
            simp only [getLessonById, hp, hf]
            exact goodResp_notFound "Lesson not found" (by decide)
        | some d =>
            simp only [getLessonById, hp, hf]
            exact goodResp_ok _
  · cases hi : insertOne db.lessons db.nextOid body with
    | none =>
        simp only [postLessons, hi]
        exact goodResp_err "Failed to add lesson" (by decide)
    | some t =>
        obtain ⟨ls, idv, ctr⟩ := t
        simp only [postLessons, hi]
        exact goodResp_created _
  · cases hps : parseOps updates with
    | none =>
        simp only [putUpdateSpaces, hps]
        exact goodResp_err "Failed to update spaces" (by decide)
    | some ops =>
        by_cases hemp : ops.isEmpty
        · simp only [putUpdateSpaces, hps, hemp, if_true]
          exact goodResp_err "Failed to update spaces" (by decide)
        · have hemp' : ops.isEmpty = false := by
            cases hv : ops.isEmpty
            · rfl
            · exact absurd hv hemp
          simp only [putUpdateSpaces, hps, hemp', Bool.false_eq_true, if_false]
          exact goodResp_ok _
  · cases hp : parseObjectId idStr with
    | none =>
        simp only [putLessonById, hp]
        exact goodResp_err "Failed to update lesson" (by decide)
    | some o =>
        cases hu : updateOne db.lessons o body with
        | none =>
            simp only [putLessonById, hp, hu]
            exact goodResp_err "Failed to update lesson" (by decide)
        | some ls =>
            simp only [putLessonById, hp, hu]
            exact goodResp_ok _
  · cases hp : parseObjectId idStr with
    | none =>
        simp only [deleteLessonById, hp]
        exact goodResp_err "Failed to delete lesson" (by decide)
    | some o =>
        simp only [deleteLessonById, hp]
        exact goodResp_ok _
  · cases hi : insertOne db.orders db.nextOid body with
    | none =>
        simp only [postOrder, hi]
        exact goodResp_err "Failed to place order" (by decide)
    | some t =>
        obtain ⟨os, idv, ctr⟩ := t
        simp only [postOrder, hi]
        exact goodResp_created _
